import Mathlib

/-!
Verification of the MAVLink v2 UDP protocol codec
(`src/lib/udp_mavlink_protocol.py`, class `UdpMavlinkProtocol`).

The stream-assembly loop, field resolution, error-record construction and
the write path are translated directly from the Python source.  The parts
the source delegates to the external `pymavlink` library (packet packing,
parsing, CRC validation, field layout) are modelled from the spec, as
marked on each definition.

Bytes are `Nat` values in `0..255`; byte strings are `List Nat`.
-/

namespace Mavlink

/-- Little-endian serialization of `n` into exactly `w` bytes
(each reduced mod 256, as a machine register would). -/
def leBytes : Nat → Nat → List Nat
  | 0, _ => []
  | w + 1, n => (n % 256) :: leBytes w (n / 256)

/-- Little-endian value of a byte list. -/
def leNat : List Nat → Nat
  | [] => 0
  | b :: bs => b + 256 * leNat bs

theorem leBytes_length (w n : Nat) : (leBytes w n).length = w := by
  induction w generalizing n with
  | zero => rfl
  | succ w ih => simp [leBytes, ih]

theorem leBytes_lt (w n : Nat) : ∀ b ∈ leBytes w n, b < 256 := by
  induction w generalizing n with
  | zero => simp [leBytes]
  | succ w ih =>
    intro b hb
    simp only [leBytes, List.mem_cons] at hb
    rcases hb with h | h
    · omega
    · exact ih _ b h

theorem leNat_leBytes (w n : Nat) (h : n < 256 ^ w) :
    leNat (leBytes w n) = n := by
  induction w generalizing n with
  | zero =>
    simp [leBytes, leNat]
    omega
  | succ w ih =>
    have hdiv : n / 256 < 256 ^ w := by
      rw [Nat.div_lt_iff_lt_mul (by norm_num : 0 < 256)]
      calc n < 256 ^ (w + 1) := h
        _ = 256 ^ w * 256 := by ring
    simp only [leBytes, leNat, ih (n / 256) hdiv]
    omega

/-- One lowercase hex digit, as produced by Python `bytes.hex()`. -/
def hexDigit : Nat → Char
  | 0 => '0' | 1 => '1' | 2 => '2' | 3 => '3' | 4 => '4'
  | 5 => '5' | 6 => '6' | 7 => '7' | 8 => '8' | 9 => '9'
  | 10 => 'a' | 11 => 'b' | 12 => 'c' | 13 => 'd' | 14 => 'e'
  | _ => 'f'

/-- Numeric value of a hex digit character. -/
def hexVal : Char → Nat
  | '0' => 0 | '1' => 1 | '2' => 2 | '3' => 3 | '4' => 4
  | '5' => 5 | '6' => 6 | '7' => 7 | '8' => 8 | '9' => 9
  | 'a' => 10 | 'b' => 11 | 'c' => 12 | 'd' => 13 | 'e' => 14
  | _ => 15

/-- `bytes.hex()`: two lowercase hex digits per byte. -/
def hexChars : List Nat → List Char
  | [] => []
  | b :: bs => hexDigit (b / 16) :: hexDigit (b % 16) :: hexChars bs

def hexEncode (bs : List Nat) : String := String.mk (hexChars bs)

/-- Inverse of `hexChars`: read the characters two at a time. -/
def hexDecodeChars : List Char → List Nat
  | c1 :: c2 :: rest => (hexVal c1 * 16 + hexVal c2) :: hexDecodeChars rest
  | _ => []

def hexDecode (s : String) : List Nat := hexDecodeChars s.data

theorem hexVal_hexDigit (d : Nat) (h : d < 16) : hexVal (hexDigit d) = d := by
  interval_cases d <;> rfl

/-- The hex encoding of a byte string is reversible. -/
theorem hexDecode_hexEncode (bs : List Nat) (h : ∀ b ∈ bs, b < 256) :
    hexDecode (hexEncode bs) = bs := by
  induction bs with
  | nil => rfl
  | cons b rest ih =>
    have hb : b < 256 := h b (List.mem_cons_self _ _)
    have hrest : ∀ x ∈ rest, x < 256 := fun x hx => h x (List.mem_cons_of_mem _ hx)
    have h1 : b / 16 < 16 := by omega
    have h2 : b % 16 < 16 := by omega
    simp only [hexEncode, hexDecode, hexChars] at *
    simp only [hexDecodeChars, hexVal_hexDigit _ h1, hexVal_hexDigit _ h2]
    have : b / 16 * 16 + b % 16 = b := by omega
    rw [this]
    exact congrArg (b :: ·) (ih hrest)

/-! ## Schema data model (spec §3: SchemaEntry, dialect field layout) -/

/-- A field's wire type (spec §4.3 step 7): unsigned/signed
little-endian integer of `w` bytes, IEEE single/double precision float,
or a fixed-length character array. -/
inductive FieldType
  | unsigned (w : Nat)
  | signed (w : Nat)
  | float32
  | float64
  | chararray (len : Nat)
deriving DecidableEq, Repr

/-- A field value as it appears in the JSON dictionaries the protocol
exchanges: an integer, an IEEE float, or a (byte-)string.  A float is
represented by the bit pattern of its wire encoding at the field's
declared precision (binary32 or binary64): the codec transports float
fields verbatim as their 4- or 8-byte little-endian bit patterns, while
interpreting the bits as a real number — and any rounding of wider host
values down to the field's precision — is host-side floating-point
arithmetic outside the codec.  A value exactly representable at the
declared precision is one whose bit pattern fits the declared width. -/
inductive Value
  | intV (i : Int)
  | strV (s : List Nat)
  | floatV (bits : Nat)
deriving DecidableEq, Repr

/-- Byte width of one field on the (untruncated) wire. -/
def FieldType.width : FieldType → Nat
  | .unsigned w => w
  | .signed w => w
  | .float32 => 4
  | .float64 => 8
  | .chararray len => len

/-- One message schema (spec §3 SchemaEntry): numeric id, canonical
uppercase name, ordered field list, per-message checksum seed byte
(pymavlink `crc_extra`). -/
structure SchemaEntry where
  id : Nat
  name : String
  fields : List (String × FieldType)
  crcExtra : Nat
deriving DecidableEq, Repr

/-- Canonical (untruncated) payload length: sum of the field widths. -/
def canonicalLength (fields : List (String × FieldType)) : Nat :=
  (fields.map (fun f => f.2.width)).sum

/-- Registry lookup by message name (source: `self._msg_classes.get(msg_name)`). -/
def findByName (reg : List SchemaEntry) (name : String) : Option SchemaEntry :=
  reg.find? (fun e => e.name = name)

/-- Registry lookup by numeric message id (spec §4.1 `lookup_by_id`). -/
def findById (reg : List SchemaEntry) (id : Nat) : Option SchemaEntry :=
  reg.find? (fun e => e.id = id)

/-- `value` is representable in a field of type `t` at the declared
precision: integers within the type's range, character arrays at most
`len` non-NUL bytes. -/
def representable : FieldType → Value → Prop
  | .unsigned w, .intV i => 0 ≤ i ∧ i < (2 : Int) ^ (8 * w)
  | .signed w, .intV i => -((2 : Int) ^ (8 * w) / 2) ≤ i ∧ i < (2 : Int) ^ (8 * w) / 2
  | .float32, .floatV bits => bits < 2 ^ 32
  | .float64, .floatV bits => bits < 2 ^ 64
  | .chararray len, .strV s => s.length ≤ len ∧ ∀ b ∈ s, 0 < b ∧ b < 256
  | _, _ => False

instance (t : FieldType) (v : Value) : Decidable (representable t v) := by
  cases t <;> cases v <;> simp only [representable] <;> infer_instance

/-- Modelled from the spec: serialization of one field value into its
fixed-width wire bytes (spec §4.3 step 7 layout, encode direction;
the source delegates this to pymavlink `struct` packing).  Fails —
as `struct.pack` raises — when the value does not fit the field. -/
def serializeField : FieldType → Value → Except String (List Nat)
  | .unsigned w, .intV i =>
    if 0 ≤ i ∧ i < (2 : Int) ^ (8 * w) then .ok (leBytes w i.toNat)
    else .error "int out of range"
  | .signed w, .intV i =>
    if -((2 : Int) ^ (8 * w) / 2) ≤ i ∧ i < (2 : Int) ^ (8 * w) / 2 then
      .ok (leBytes w (i % (2 : Int) ^ (8 * w)).toNat)
    else .error "int out of range"
  | .float32, .floatV bits =>
    if bits < 2 ^ 32 then .ok (leBytes 4 bits) else .error "float out of range"
  | .float64, .floatV bits =>
    if bits < 2 ^ 64 then .ok (leBytes 8 bits) else .error "float out of range"
  | .chararray len, .strV s =>
    if s.length ≤ len ∧ ∀ b ∈ s, b < 256 then
      .ok (s ++ List.replicate (len - s.length) 0)
    else .error "string too long"
  | _, _ => .error "type mismatch"

/-- Modelled from the spec: deserialization of one field from its wire
bytes (spec §4.3 step 7, decode direction).  Character arrays are read up
to the first NUL, as pymavlink's string decoding does. -/
def deserializeField : FieldType → List Nat → Value
  | .unsigned _, bs => .intV (leNat bs)
  | .signed w, bs =>
    let n := leNat bs
    if 2 * n < 2 ^ (8 * w) then .intV n
    else .intV ((n : Int) - (2 : Int) ^ (8 * w))
  | .float32, bs => .floatV (leNat bs)
  | .float64, bs => .floatV (leNat bs)
  | .chararray _, bs => .strV (bs.takeWhile (fun b => b ≠ 0))

/-- Modelled from the spec: serialize the fields in schema order into the
fixed-width payload (spec §4.4 step 3). -/
def serializeFields : List (String × FieldType) → List Value → Except String (List Nat)
  | [], [] => .ok []
  | (_, t) :: fs, v :: vs =>
    match serializeField t v with
    | .error msg => .error msg
    | .ok b =>
      match serializeFields fs vs with
      | .error msg => .error msg
      | .ok rest => .ok (b ++ rest)
  | _, _ => .error "field count mismatch"

/-- Modelled from the spec: walk the schema's field list in declared
order, slicing fixed-width fields out of the zero-extended payload
(spec §4.3 step 7). -/
def deserializeFields : List (String × FieldType) → List Nat → List (String × Value)
  | [], _ => []
  | (n, t) :: fs, payload =>
    (n, deserializeField t (payload.take t.width)) :: deserializeFields fs (payload.drop t.width)

/-! ## Checksum and frame packing/parsing (spec §4.3/§4.4, modelled) -/

/-- Modelled from the spec: one step of the 16-bit running checksum
(X.25 / MCRF4XX accumulate, as used by MAVLink).  The result is reduced
mod 2^16 explicitly, per the spec's "16-bit running checksum". -/
def crcStep (accum b : Nat) : Nat :=
  let tmp := (b ^^^ (accum % 256)) % 256
  let tmp := (tmp ^^^ (tmp <<< 4)) % 256
  ((accum >>> 8) ^^^ (tmp <<< 8) ^^^ (tmp <<< 3) ^^^ (tmp >>> 4)) % 65536

/-- Modelled from the spec: the 16-bit checksum of a byte string,
seeded with 0xFFFF. -/
def crc16 (bs : List Nat) : Nat := bs.foldl crcStep 0xFFFF

theorem crc16_lt (bs : List Nat) : crc16 bs < 65536 := by
  suffices h : ∀ a, a < 65536 → bs.foldl crcStep a < 65536 by
    exact h 0xFFFF (by norm_num)
  induction bs with
  | nil => intro a ha; simpa using ha
  | cons b rest ih =>
    intro a _
    simp only [List.foldl_cons]
    exact ih (crcStep a b) (Nat.mod_lt _ (by norm_num))

/-- MAVLink v2 sync byte (source: `MAVLINK_STX = 0xFD`). -/
def MAVLINK_STX : Nat := 0xFD

/-- Header length in bytes (source: `MAVLINK_HEADER_LEN = 10`). -/
def MAVLINK_HEADER_LEN : Nat := 10

/-- Checksum length in bytes (source: `MAVLINK_CRC_LEN = 2`). -/
def MAVLINK_CRC_LEN : Nat := 2

/-- Modelled from the spec: the checksum of a frame's header-after-STX +
payload span, extended with the schema's per-message seed byte
(spec §4.3 step 3 / §4.4 step 4). -/
def frameCrc (e : SchemaEntry) (span : List Nat) : Nat :=
  crc16 (span ++ [e.crcExtra % 256])

/-- The 10-byte MAVLink v2 header: sync marker, payload length =
canonical length, incompat/compat flag bytes (0), sequence number,
source system, source component, 3-byte little-endian message id. -/
def mavHeader (e : SchemaEntry) (sysid compid seq : Nat) : List Nat :=
  [MAVLINK_STX, canonicalLength e.fields % 256, 0, 0, seq % 256,
    sysid % 256, compid % 256] ++ leBytes 3 e.id

/-- Modelled from the spec: pack one message into a complete MAVLink v2
frame (spec §4.4 steps 3–4; in the source this is pymavlink `msg.pack`):
the header, the fixed-width payload, and the 2-byte checksum over the
header-after-sync + payload span. -/
def packMessage (e : SchemaEntry) (vals : List Value) (sysid compid seq : Nat) :
    Except String (List Nat) :=
  match serializeFields e.fields vals with
  | .error msg => .error msg
  | .ok payload =>
    .ok (mavHeader e sysid compid seq ++ payload ++
      leBytes 2 (frameCrc e ((mavHeader e sysid compid seq).drop 1 ++ payload)))

/-- A successfully decoded message: the JSON dictionary the source
builds from `msg.to_dict()` plus the metadata keys it adds
(`MSGID`, `MSGNAME`, `SYSTEM_ID`, `COMPONENT_ID`). -/
structure DecodedMessage where
  msgid : Nat
  msgname : String
  systemId : Nat
  componentId : Nat
  fields : List (String × Value)
deriving DecidableEq, Repr

/-- Decode-failure classification (spec §3 DecodeError kinds, without
`FilteredOut`, which the source handles in the read loop itself). -/
inductive DecodeErrKind
  | framingError
  | checksumError
  | unknownMessageId (id : Nat)
deriving DecidableEq, Repr

/-- Modelled from the spec: validate and decode one complete candidate
frame (spec §4.3 steps 1–8 except the target filter, which the source
applies in `read_data` itself; in the source this work is pymavlink's
`parse_char` over the sliced packet). -/
def parseFrame (reg : List SchemaEntry) (frame : List Nat) :
    Except DecodeErrKind DecodedMessage :=
  if frame.getD 0 0 ≠ MAVLINK_STX then .error .framingError
  else
    let msgid := leNat [frame.getD 7 0, frame.getD 8 0, frame.getD 9 0]
    match findById reg msgid with
    | none => .error (.unknownMessageId msgid)
    | some e =>
      let plen := frame.getD 1 0
      let span := (frame.drop 1).take (MAVLINK_HEADER_LEN - 1 + plen)
      let stored := leNat [frame.getD (MAVLINK_HEADER_LEN + plen) 0,
        frame.getD (MAVLINK_HEADER_LEN + plen + 1) 0]
      if frameCrc e span ≠ stored then .error .checksumError
      else
        let payloadRaw := (frame.drop MAVLINK_HEADER_LEN).take plen
        let clen := canonicalLength e.fields
        let payload := payloadRaw ++ List.replicate (clen - payloadRaw.length) 0
        .ok { msgid := e.id, msgname := e.name,
              systemId := frame.getD 5 0, componentId := frame.getD 6 0,
              fields := deserializeFields e.fields payload }

/-! ## Error records and the `read_data` stream loop (source lines 62–234) -/

/-- The error-telemetry JSON dictionary the source builds on a decode
failure (source lines 161–171 and 209–219). -/
structure ErrorRecord where
  msgid : Nat
  msgname : String
  systemId : Nat
  componentId : Nat
  timestamp : Nat
  errorType : String
  errorMessage : String
  packetLength : Nat
  rawPacket : String
deriving DecidableEq, Repr

/-- Error-kind tag the source attaches to a failed packet.  Framing
faults take the `have_prefix_error` branch (source line 153); CRC faults
produce a message containing "crc" and are tagged `CRC_FAILURE` (source
lines 157 and 200–201); an unknown message id raises pymavlink's
`MAVError`, whose text contains neither "crc" nor "parse", so the tag
falls back to the exception class name (source line 199). -/
def errType : DecodeErrKind → String
  | .framingError => "PREFIX_ERROR"
  | .checksumError => "CRC_FAILURE"
  | .unknownMessageId _ => "MAVError"

/-- Human-readable message accompanying the error tag. -/
def errMsg : DecodeErrKind → String
  | .framingError => "Invalid MAVLink packet prefix/magic byte"
  | .checksumError => "CRC validation failed"
  | .unknownMessageId _ => "unknown MAVLink message ID"

/-- The error packet dictionary (source lines 146–171): sentinel id
65535, name `MAVLINK_ERROR`, best-effort source identity from raw packet
bytes 5 and 6, microsecond timestamp, error tag and message, original
packet length, and the packet bytes hex-encoded. -/
def mkErrorRecord (packet : List Nat) (now : Nat) (k : DecodeErrKind) : ErrorRecord :=
  { msgid := 65535
    msgname := "MAVLINK_ERROR"
    systemId := if 5 < packet.length then packet.getD 5 0 else 0
    componentId := if 6 < packet.length then packet.getD 6 0 else 0
    timestamp := now
    errorType := errType k
    errorMessage := errMsg k
    packetLength := packet.length
    rawPacket := hexEncode packet }

/-- Result of one `read_data` call: `'STOP'` (need more data) or one
decoded message returned to COSMOS. -/
inductive ReadResult
  | stop
  | msg (m : DecodedMessage)
deriving DecidableEq, Repr

/-- The `while True` loop of `read_data` (source lines 75–234), acting on
the concatenated buffer.  Returns the call's result, the residual
buffer, and the error records injected (in order) during the call. -/
def readLoop (reg : List SchemaEntry) (target : Nat) (now : Nat)
    (buffer : List Nat) : ReadResult × List Nat × List ErrorRecord :=
  if _h1 : buffer.length < 1 then (.stop, buffer, [])
  else if _h2 : buffer.getD 0 0 ≠ MAVLINK_STX then
    readLoop reg target now (buffer.drop 1)
  else if _h3 : buffer.length < MAVLINK_HEADER_LEN then (.stop, buffer, [])
  else if _h4 : buffer.length <
      MAVLINK_HEADER_LEN + buffer.getD 1 0 + MAVLINK_CRC_LEN then (.stop, buffer, [])
  else
    -- `total_len = MAVLINK_HEADER_LEN + payload_len + MAVLINK_CRC_LEN` with
    -- `payload_len` read from buffer byte offset 1 (source lines 91-94)
    match parseFrame reg
        (buffer.take (MAVLINK_HEADER_LEN + buffer.getD 1 0 + MAVLINK_CRC_LEN)) with
    | .ok m =>
      if target ≠ 0 ∧ m.systemId ≠ target then
        readLoop reg target now
          (buffer.drop (MAVLINK_HEADER_LEN + buffer.getD 1 0 + MAVLINK_CRC_LEN))
      else (.msg m,
        buffer.drop (MAVLINK_HEADER_LEN + buffer.getD 1 0 + MAVLINK_CRC_LEN), [])
    | .error k =>
      let (r, b, recs) := readLoop reg target now
        (buffer.drop (MAVLINK_HEADER_LEN + buffer.getD 1 0 + MAVLINK_CRC_LEN))
      (r, b, mkErrorRecord
        (buffer.take (MAVLINK_HEADER_LEN + buffer.getD 1 0 + MAVLINK_CRC_LEN)) now k :: recs)
  termination_by buffer.length
  decreasing_by
  all_goals simp only [List.length_drop, MAVLINK_HEADER_LEN, MAVLINK_CRC_LEN] at *
  all_goals omega

/-- Fuel-indexed version of `readLoop`, byte-for-byte the same body, used
to evaluate the loop and to witness its termination (`none` = fuel ran
out, which `readLoopF_some` shows never happens for sufficient fuel). -/
def readLoopF (reg : List SchemaEntry) (target : Nat) (now : Nat) :
    Nat → List Nat → Option (ReadResult × List Nat × List ErrorRecord)
  | 0, _ => none
  | fuel + 1, buffer =>
    if buffer.length < 1 then some (.stop, buffer, [])
    else if buffer.getD 0 0 ≠ MAVLINK_STX then
      readLoopF reg target now fuel (buffer.drop 1)
    else if buffer.length < MAVLINK_HEADER_LEN then some (.stop, buffer, [])
    else if buffer.length <
        MAVLINK_HEADER_LEN + buffer.getD 1 0 + MAVLINK_CRC_LEN then some (.stop, buffer, [])
    else
      match parseFrame reg
          (buffer.take (MAVLINK_HEADER_LEN + buffer.getD 1 0 + MAVLINK_CRC_LEN)) with
      | .ok m =>
        if target ≠ 0 ∧ m.systemId ≠ target then
          readLoopF reg target now fuel
            (buffer.drop (MAVLINK_HEADER_LEN + buffer.getD 1 0 + MAVLINK_CRC_LEN))
        else some (.msg m,
          buffer.drop (MAVLINK_HEADER_LEN + buffer.getD 1 0 + MAVLINK_CRC_LEN), [])
      | .error k =>
        (readLoopF reg target now fuel
            (buffer.drop (MAVLINK_HEADER_LEN + buffer.getD 1 0 + MAVLINK_CRC_LEN))).map
          (fun (r, b, recs) => (r, b, mkErrorRecord
            (buffer.take (MAVLINK_HEADER_LEN + buffer.getD 1 0 + MAVLINK_CRC_LEN)) now k :: recs))

/-- `read_data` (source lines 62–234): append the chunk to the assembly
buffer and run the loop. -/
def read_data (reg : List SchemaEntry) (target : Nat) (now : Nat)
    (buffer data : List Nat) : ReadResult × List Nat × List ErrorRecord :=
  readLoop reg target now (buffer ++ data)

/-- Any fuel beyond the buffer length evaluates the loop: the loop always
completes, without an artificial bound. -/
theorem readLoopF_some (reg : List SchemaEntry) (target now : Nat) :
    ∀ (fuel : Nat) (buffer : List Nat), buffer.length < fuel →
      readLoopF reg target now fuel buffer = some (readLoop reg target now buffer) := by
  intro fuel
  induction fuel with
  | zero => intro buffer h; omega
  | succ fuel ih =>
    intro buffer h
    rw [readLoopF, readLoop.eq_def]
    by_cases h1 : buffer.length < 1
    · simp [h1]
    · rw [if_neg h1, dif_neg h1]
      by_cases h2 : buffer.getD 0 0 ≠ MAVLINK_STX
      · rw [if_pos h2, dif_pos h2]
        exact ih _ (by simp only [List.length_drop]; omega)
      · rw [if_neg h2, dif_neg h2]
        by_cases h3 : buffer.length < MAVLINK_HEADER_LEN
        · simp [h3]
        · rw [if_neg h3, dif_neg h3]
          simp only
          split
          · rfl
          · rename_i h4
            split
            · split
              · apply ih
                simp only [List.length_drop, MAVLINK_HEADER_LEN, MAVLINK_CRC_LEN] at *
                omega
              · rfl
            · rw [ih]
              · rfl
              · simp only [List.length_drop, MAVLINK_HEADER_LEN, MAVLINK_CRC_LEN] at *
                omega

/-- Evaluation principle: a fueled run with sufficient fuel computes
`readLoop`. -/
theorem readLoop_eval {reg : List SchemaEntry} {target now : Nat}
    {buffer : List Nat} {r : ReadResult × List Nat × List ErrorRecord}
    (h : readLoopF reg target now (buffer.length + 1) buffer = some r) :
    readLoop reg target now buffer = r := by
  rw [readLoopF_some reg target now (buffer.length + 1) buffer (by omega)] at h
  exact Option.some.inj h

/-! ## `write_data` — the command-encode path (source lines 236–288) -/

/-- Python `str.upper()` on ASCII message names (`String.toUpper`,
character by character). -/
def pyUpper (s : String) : String := String.mk (s.data.map Char.toUpper)

/-- The parsed JSON command dictionary handed to `write_data`, with the
`MSGNAME` entry split out and the remaining field entries as a key/value
list (python dict: unique keys, first match wins). -/
structure CmdInput where
  msgname : String
  fields : List (String × Value)
deriving DecidableEq, Repr

/-- Python dict lookup `cmd[field]` guarded by `field in cmd`. -/
def dictGet : List (String × Value) → String → Option Value
  | [], _ => none
  | (k, v) :: rest, key => if k = key then some v else dictGet rest key

/-- Source: `'char' in ftype` (line 276) — in the pymavlink dialect the
field-type strings are `"char"`, `"uint8_t"`, …, so the substring test
holds exactly for character-array fields. -/
def FieldType.isCharField : FieldType → Bool
  | .chararray _ => true
  | _ => false

/-- The zero-value default `write_data` uses for an omitted field
(source lines 274–279): empty string for char fields, numeric 0
otherwise. -/
def defaultValue (t : FieldType) : Value :=
  if t.isCharField then .strV [] else .intV 0

/-- Field-value resolution of `write_data` (source lines 269–279): for
each schema field in order, take the exact-key dictionary entry if
present, else the type-appropriate zero default.  (pymavlink's
`fieldnames`/`fieldtypes` are parallel lists; the paired list here is
their zip.) -/
def resolveFieldValues (fields : List (String × FieldType))
    (cmd : List (String × Value)) : List Value :=
  fields.map (fun f =>
    match dictGet cmd f.1 with
    | some v => v
    | none => defaultValue f.2)

/-- The `try:` body of `write_data` (source lines 253–284): uppercase the
message name, look it up, resolve the field values, pack. -/
def encodeCmd (reg : List SchemaEntry) (cmd : CmdInput)
    (sysid compid seq : Nat) : Except String (List Nat) :=
  match findByName reg (pyUpper cmd.msgname) with
  | none => .error "Unknown MAVLink message type"
  | some e => packMessage e (resolveFieldValues e.fields cmd.fields) sysid compid seq

/-- Boundary result of `write_data`: the packed frame bytes, or — when
anything in the body raised — the original input returned unchanged. -/
inductive WriteResult
  | packet (bytes : List Nat)
  | passthrough (original : CmdInput)
deriving DecidableEq, Repr

/-- `write_data` (source lines 236–288): the whole body is wrapped in
`try/except Exception`; on any failure the error is printed and the
original `data` is returned as-is (source lines 286–288). -/
def write_data (reg : List SchemaEntry) (cmd : CmdInput)
    (sysid compid seq : Nat) : WriteResult :=
  match encodeCmd reg cmd sysid compid seq with
  | .ok packet => .packet packet
  | .error _ => .passthrough cmd

/-! ## Successive `read_data` calls, and concrete test fixtures -/

/-- A sequence of `read_data` calls, one chunk per call (a chunk may be
empty).  Collects in order every decoded message the calls return,
threading the residual assembly buffer between calls, and returns the
final buffer. -/
def feedChunks (reg : List SchemaEntry) (target : Nat) (now : Nat) :
    List (List Nat) → List Nat → List DecodedMessage × List Nat
  | [], buffer => ([], buffer)
  | c :: cs, buffer =>
    match read_data reg target now buffer c with
    | (.msg m, buf', _) =>
      let (ms, b) := feedChunks reg target now cs buf'
      (m :: ms, b)
    | (.stop, buf', _) => feedChunks reg target now cs buf'

/-- Fueled companion of `feedChunks` (for evaluation). -/
def feedChunksF (reg : List SchemaEntry) (target : Nat) (now : Nat) :
    List (List Nat) → List Nat → Option (List DecodedMessage × List Nat)
  | [], buffer => some ([], buffer)
  | c :: cs, buffer =>
    match readLoopF reg target now ((buffer ++ c).length + 1) (buffer ++ c) with
    | some (.msg m, buf', _) =>
      (feedChunksF reg target now cs buf').map (fun p => (m :: p.1, p.2))
    | some (.stop, buf', _) => feedChunksF reg target now cs buf'
    | none => none

theorem feedChunksF_eq (reg : List SchemaEntry) (target now : Nat) :
    ∀ (chunks : List (List Nat)) (buffer : List Nat),
      feedChunksF reg target now chunks buffer =
        some (feedChunks reg target now chunks buffer) := by
  intro chunks
  induction chunks with
  | nil => intro buffer; rfl
  | cons c cs ih =>
    intro buffer
    rw [feedChunksF, feedChunks]
    simp only [read_data]
    rw [readLoopF_some reg target now ((buffer ++ c).length + 1) (buffer ++ c) (by omega)]
    rcases hr : readLoop reg target now (buffer ++ c) with ⟨r, buf', recs⟩
    cases r with
    | stop => simpa using ih buf'
    | msg m => simp [ih buf']

/-- The `"PING"` schema of the spec's concrete scenario (§8): id 1, one
`uint32` field `seq`, canonical length 4. -/
def pingEntry : SchemaEntry :=
  { id := 1, name := "PING", fields := [("seq", .unsigned 4)], crcExtra := 42 }

/-- A test registry holding the `PING` schema. -/
def testReg : List SchemaEntry := [pingEntry]

/-- A concrete packed `PING` frame with sequence byte `seq` and field
value `n` (source system 255, component 0 — the protocol defaults). -/
def pingFrame (seq n : Nat) : List Nat :=
  match packMessage pingEntry [.intV (n : Int)] 255 0 seq with
  | .ok bs => bs
  | .error _ => []

/-- The decoded message for `pingFrame _ n`. -/
def pingMsg (n : Int) : DecodedMessage :=
  { msgid := 1, msgname := "PING", systemId := 255, componentId := 0,
    fields := [("seq", .intV n)] }

/-! ## Unfolding lemmas for the loop -/

/-- Processing of one sliced candidate frame (the body of the loop after
the slice, source lines 104–234). -/
def handleFrame (reg : List SchemaEntry) (target : Nat) (now : Nat)
    (packet_data rest : List Nat) : ReadResult × List Nat × List ErrorRecord :=
  match parseFrame reg packet_data with
  | .ok m =>
    if target ≠ 0 ∧ m.systemId ≠ target then readLoop reg target now rest
    else (.msg m, rest, [])
  | .error k =>
    let (r, b, recs) := readLoop reg target now rest
    (r, b, mkErrorRecord packet_data now k :: recs)

theorem readLoop_nil (reg : List SchemaEntry) (target now : Nat) :
    readLoop reg target now [] = (.stop, [], []) := by
  rw [readLoop.eq_def]; rfl

theorem readLoop_resync (reg : List SchemaEntry) (target now : Nat)
    (b : Nat) (rest : List Nat) (hb : b ≠ MAVLINK_STX) :
    readLoop reg target now (b :: rest) = readLoop reg target now rest := by
  rw [readLoop.eq_def]
  rw [dif_neg (by simp)]
  rw [dif_pos (by simpa using hb)]
  rfl

theorem readLoop_partial_header (reg : List SchemaEntry) (target now : Nat)
    (buffer : List Nat) (h0 : buffer.getD 0 0 = MAVLINK_STX)
    (h1 : 1 ≤ buffer.length) (h3 : buffer.length < MAVLINK_HEADER_LEN) :
    readLoop reg target now buffer = (.stop, buffer, []) := by
  rw [readLoop.eq_def]
  rw [dif_neg (by omega)]
  rw [dif_neg (by simpa using h0)]
  rw [dif_pos h3]

theorem readLoop_partial_frame (reg : List SchemaEntry) (target now : Nat)
    (buffer : List Nat) (h0 : buffer.getD 0 0 = MAVLINK_STX)
    (h3 : MAVLINK_HEADER_LEN ≤ buffer.length)
    (h4 : buffer.length < MAVLINK_HEADER_LEN + buffer.getD 1 0 + MAVLINK_CRC_LEN) :
    readLoop reg target now buffer = (.stop, buffer, []) := by
  rw [readLoop.eq_def]
  rw [dif_neg (by simp only [MAVLINK_HEADER_LEN] at h3; omega)]
  rw [dif_neg (by simpa using h0)]
  rw [dif_neg (by omega)]
  simp only
  rw [dif_pos h4]

theorem readLoop_complete_frame (reg : List SchemaEntry) (target now : Nat)
    (buffer : List Nat) (h0 : buffer.getD 0 0 = MAVLINK_STX)
    (h4 : MAVLINK_HEADER_LEN + buffer.getD 1 0 + MAVLINK_CRC_LEN ≤ buffer.length) :
    readLoop reg target now buffer =
      handleFrame reg target now
        (buffer.take (MAVLINK_HEADER_LEN + buffer.getD 1 0 + MAVLINK_CRC_LEN))
        (buffer.drop (MAVLINK_HEADER_LEN + buffer.getD 1 0 + MAVLINK_CRC_LEN)) := by
  rw [readLoop.eq_def]
  rw [dif_neg (by simp only [MAVLINK_HEADER_LEN, MAVLINK_CRC_LEN] at h4; omega)]
  rw [dif_neg (by simpa using h0)]
  rw [dif_neg (by simp only [MAVLINK_HEADER_LEN, MAVLINK_CRC_LEN] at h4 ⊢; omega)]
  simp only
  rw [dif_neg (by omega)]
  rfl

/-! ## Claims C6, C7, C10 -/

/-- C6: for any input buffer consisting entirely of bytes that are not
the sync marker 0xFD, `read_data` yields zero frames (returns `'STOP'`,
no message, no error records) and fully drains the buffer, and each
resynchronization step discards exactly one byte. -/
theorem c6_resync_drains (reg : List SchemaEntry) (target now : Nat)
    (data : List Nat) (h : ∀ b ∈ data, b ≠ MAVLINK_STX) :
    read_data reg target now [] data = (.stop, [], []) ∧
    ∀ b rest, data = b :: rest →
      readLoop reg target now (b :: rest) = readLoop reg target now rest := by
  constructor
  · show readLoop reg target now ([] ++ data) = (.stop, [], [])
    rw [List.nil_append]
    induction data with
    | nil => exact readLoop_nil reg target now
    | cons b rest ih =>
      rw [readLoop_resync reg target now b rest (h b (List.mem_cons_self _ _))]
      exact ih (fun x hx => h x (List.mem_cons_of_mem _ hx))
  · intro b rest hd
    exact readLoop_resync reg target now b rest (h b (hd ▸ List.mem_cons_self _ _))

/-- C6 witness: a concrete noise buffer. -/
theorem c6_resync_drains_witness :
    read_data testReg 0 0 [] [1, 2, 3] = (.stop, [], []) ∧
    ∀ b rest, [1, 2, 3] = b :: rest →
      readLoop testReg 0 0 (b :: rest) = readLoop testReg 0 0 rest :=
  c6_resync_drains testReg 0 0 [1, 2, 3] (by decide)

/-- C7: when the buffer starts with the sync byte and holds a full
header, the candidate length is `HEADER_LEN (10) + payload_len +
CRC_LEN (2)` with `payload_len` read from byte offset 1; with fewer
bytes than that the loop stops awaiting input with the buffer intact,
otherwise exactly `total_len` bytes are sliced off as the candidate
frame and the bytes beyond are preserved for the next iteration; a
declared payload length of 0 gives a minimal 12-byte frame. -/
theorem c7_frame_slicing (reg : List SchemaEntry) (target now : Nat)
    (buffer : List Nat) (h0 : buffer.getD 0 0 = MAVLINK_STX)
    (h3 : MAVLINK_HEADER_LEN ≤ buffer.length) :
    (buffer.length < MAVLINK_HEADER_LEN + buffer.getD 1 0 + MAVLINK_CRC_LEN →
      readLoop reg target now buffer = (.stop, buffer, [])) ∧
    (MAVLINK_HEADER_LEN + buffer.getD 1 0 + MAVLINK_CRC_LEN ≤ buffer.length →
      readLoop reg target now buffer =
        handleFrame reg target now
          (buffer.take (MAVLINK_HEADER_LEN + buffer.getD 1 0 + MAVLINK_CRC_LEN))
          (buffer.drop (MAVLINK_HEADER_LEN + buffer.getD 1 0 + MAVLINK_CRC_LEN)) ∧
      (buffer.take (MAVLINK_HEADER_LEN + buffer.getD 1 0 + MAVLINK_CRC_LEN)).length =
        MAVLINK_HEADER_LEN + buffer.getD 1 0 + MAVLINK_CRC_LEN ∧
      buffer.take (MAVLINK_HEADER_LEN + buffer.getD 1 0 + MAVLINK_CRC_LEN) ++
        buffer.drop (MAVLINK_HEADER_LEN + buffer.getD 1 0 + MAVLINK_CRC_LEN) = buffer) ∧
    (buffer.getD 1 0 = 0 →
      MAVLINK_HEADER_LEN + buffer.getD 1 0 + MAVLINK_CRC_LEN = 12) := by
  refine ⟨fun h4 => readLoop_partial_frame reg target now buffer h0 h3 h4,
    fun h4 => ⟨readLoop_complete_frame reg target now buffer h0 h4, ?_, ?_⟩,
    fun hz => by rw [hz]; decide⟩
  · rw [List.length_take]
    omega
  · exact List.take_append_drop _ buffer

/-- C7 witness: a concrete buffer (partial-frame case: declared payload
length 4, only 11 of the 16 required bytes buffered). -/
theorem c7_frame_slicing_witness :
    ((11 : Nat) < MAVLINK_HEADER_LEN + 4 + MAVLINK_CRC_LEN →
      readLoop testReg 0 0 [253, 4, 0, 0, 0, 255, 0, 1, 0, 0, 7] =
        (.stop, [253, 4, 0, 0, 0, 255, 0, 1, 0, 0, 7], [])) ∧
    (11 : Nat) < MAVLINK_HEADER_LEN + 4 + MAVLINK_CRC_LEN := by
  have h := c7_frame_slicing testReg 0 0 [253, 4, 0, 0, 0, 255, 0, 1, 0, 0, 7]
    (by decide) (by decide)
  exact ⟨fun _ => h.1 (by decide), by decide⟩

/-- Invariant of every `'STOP'` return, over the fueled loop. -/
theorem readLoopF_stop_inv (reg : List SchemaEntry) (target now : Nat) :
    ∀ (fuel : Nat) (buffer rest : List Nat) (recs : List ErrorRecord),
      readLoopF reg target now fuel buffer = some (.stop, rest, recs) →
      rest = [] ∨ (rest.getD 0 0 = MAVLINK_STX ∧
        (rest.length < MAVLINK_HEADER_LEN ∨
          rest.length < MAVLINK_HEADER_LEN + rest.getD 1 0 + MAVLINK_CRC_LEN)) := by
  intro fuel
  induction fuel with
  | zero => intro buffer rest recs h; simp [readLoopF] at h
  | succ fuel ih =>
    intro buffer rest recs h
    rw [readLoopF] at h
    split at h
    · rename_i h1
      simp only [Option.some.injEq, Prod.mk.injEq, true_and] at h
      left
      rw [← h.1]
      exact List.eq_nil_of_length_eq_zero (by omega)
    · split at h
      · exact ih _ _ _ h
      · split at h
        · rename_i h1 h2 h3
          simp only [Option.some.injEq, Prod.mk.injEq, true_and] at h
          right
          rw [← h.1]
          exact ⟨not_not.mp h2, Or.inl h3⟩
        · split at h
          · rename_i h1 h2 h3 h4
            simp only [Option.some.injEq, Prod.mk.injEq, true_and] at h
            right
            rw [← h.1]
            exact ⟨not_not.mp h2, Or.inr h4⟩
          · split at h
            · split at h
              · exact ih _ _ _ h
              · simp only [Option.some.injEq, Prod.mk.injEq] at h
                exact absurd h.1 (by simp)
            · rename_i k hk
              rcases ho : readLoopF reg target now fuel
                  (buffer.drop (MAVLINK_HEADER_LEN + buffer.getD 1 0 + MAVLINK_CRC_LEN))
                with _ | ⟨r, b, recs'⟩
              · rw [ho] at h; simp at h
              · rw [ho] at h
                simp only [Option.map_some', Option.some.injEq, Prod.mk.injEq] at h
                obtain ⟨hr, hb, -⟩ := h
                cases r with
                | stop => exact ih _ _ _ (hb ▸ ho)
                | msg m => exact absurd hr (by simp)

/-- C10: whenever `read_data` returns the `'STOP'` signal, the residual
assembly buffer is empty, or begins with the sync byte and is shorter
than a header, or shorter than the complete declared frame; no complete
well-formed frame is left unprocessed at a `'STOP'` return. -/
theorem c10_stop_invariant (reg : List SchemaEntry) (target now : Nat)
    (buffer data rest : List Nat) (recs : List ErrorRecord)
    (h : read_data reg target now buffer data = (.stop, rest, recs)) :
    rest = [] ∨ (rest.getD 0 0 = MAVLINK_STX ∧
      (rest.length < MAVLINK_HEADER_LEN ∨
        rest.length < MAVLINK_HEADER_LEN + rest.getD 1 0 + MAVLINK_CRC_LEN)) := by
  apply readLoopF_stop_inv reg target now ((buffer ++ data).length + 1) (buffer ++ data)
  rw [readLoopF_some reg target now _ _ (by omega)]
  rw [show readLoop reg target now (buffer ++ data) =
    read_data reg target now buffer data from rfl, h]

/-- C10 witness: a sync byte followed by a partial header. -/
theorem c10_stop_invariant_witness :
    [(253 : Nat), 5] = [] ∨ (([253, 5] : List Nat).getD 0 0 = MAVLINK_STX ∧
      (([253, 5] : List Nat).length < MAVLINK_HEADER_LEN ∨
        ([253, 5] : List Nat).length <
          MAVLINK_HEADER_LEN + ([253, 5] : List Nat).getD 1 0 + MAVLINK_CRC_LEN)) :=
  c10_stop_invariant testReg 0 0 [] [253, 5] [253, 5] []
    (readLoop_eval (by decide))

/-! ## Claim C2 -/

/-- Evaluation principle for `feedChunks`. -/
theorem feedChunks_eval {reg : List SchemaEntry} {target now : Nat}
    {chunks : List (List Nat)} {buffer : List Nat}
    {r : List DecodedMessage × List Nat}
    (h : feedChunksF reg target now chunks buffer = some r) :
    feedChunks reg target now chunks buffer = r := by
  rw [feedChunksF_eq] at h
  exact Option.some.inj h

/-- C2 counterexample: a single `read_data` call on a buffer holding two
complete valid frames returns only the first decoded message; the second
frame stays in the buffer, unprocessed, for the next call — the call does
not yield all frames' messages. -/
theorem c2_single_call_counterexample :
    feedChunks testReg 0 0 [pingFrame 0 7 ++ pingFrame 1 9] [] =
      ([pingMsg 7], pingFrame 1 9) ∧
    (feedChunks testReg 0 0 [pingFrame 0 7 ++ pingFrame 1 9] []).1 ≠
      [pingMsg 7, pingMsg 9] := by
  have h : feedChunks testReg 0 0 [pingFrame 0 7 ++ pingFrame 1 9] [] =
      ([pingMsg 7], pingFrame 1 9) := feedChunks_eval (by decide)
  refine ⟨h, ?_⟩
  rw [h]
  decide

/-- C2 amended: one `read_data` call returns only the first decoded
message and leaves the rest buffered; across successive calls (a second
call with no new data, or the same bytes split one per call) the same
two messages emerge in the same order. -/
theorem c2_frames_across_calls :
    feedChunks testReg 0 0 [pingFrame 0 7 ++ pingFrame 1 9, []] [] =
      ([pingMsg 7, pingMsg 9], []) ∧
    feedChunks testReg 0 0 ((pingFrame 0 7 ++ pingFrame 1 9).map (fun b => [b])) [] =
      ([pingMsg 7, pingMsg 9], []) := by
  constructor <;> exact feedChunks_eval (by decide)

/-! ## Claim C3 -/

theorem resolveFieldValues_getD (fields : List (String × FieldType))
    (cmd : List (String × Value)) (i : Nat) (hi : i < fields.length) :
    (resolveFieldValues fields cmd).getD i (.intV 0) =
      match dictGet cmd (fields.getD i ("", .unsigned 0)).1 with
      | some v => v
      | none => defaultValue (fields.getD i ("", .unsigned 0)).2 := by
  induction fields generalizing i with
  | nil => simp at hi
  | cons f fs ih =>
    cases i with
    | zero => rfl
    | succ n =>
      simp only [resolveFieldValues, List.map_cons, List.getD_cons_succ]
      exact ih n (by simpa using hi)

/-- C3 counterexample: the schema field is `"seq"`, the caller's map
holds only the case-variant key `"SEQ"` (matched by `"seq"` only up to
case), yet
`write_data`'s resolution takes the zero default — there is no
case-insensitive fallback; the packed frame carries 0, not 7. -/
theorem c3_case_fallback_counterexample :
    resolveFieldValues pingEntry.fields [("SEQ", .intV 7)] = [.intV 0] ∧
    resolveFieldValues pingEntry.fields [("seq", .intV 7)] = [.intV 7] ∧
    write_data testReg ⟨"PING", [("SEQ", .intV 7)]⟩ 255 0 0 = .packet (pingFrame 0 0) ∧
    pingFrame 0 0 ≠ pingFrame 0 7 := by decide

/-- C3 amended: for every field in the resolved schema's declared order,
`write_data` resolves the value by an exact-case key match in the
caller's map, and when that misses uses the type-appropriate zero
default (empty string for character-array fields, numeric 0 otherwise);
there is no case-insensitive fallback. -/
theorem c3_field_resolution (fields : List (String × FieldType))
    (cmd : List (String × Value)) :
    (resolveFieldValues fields cmd).length = fields.length ∧
    ∀ i, i < fields.length →
      ((∀ v, dictGet cmd (fields.getD i ("", .unsigned 0)).1 = some v →
          (resolveFieldValues fields cmd).getD i (.intV 0) = v) ∧
        (dictGet cmd (fields.getD i ("", .unsigned 0)).1 = none →
          (resolveFieldValues fields cmd).getD i (.intV 0) =
            (if (fields.getD i ("", .unsigned 0)).2.isCharField then .strV []
              else .intV 0))) := by
  refine ⟨by simp [resolveFieldValues], fun i hi => ⟨?_, ?_⟩⟩
  · intro v hv
    rw [resolveFieldValues_getD fields cmd i hi, hv]
  · intro hn
    rw [resolveFieldValues_getD fields cmd i hi, hn]
    rfl

/-- C3 witness for the amended claim: exact-case match returns the
caller's value. -/
theorem c3_field_resolution_witness :
    (resolveFieldValues pingEntry.fields [("seq", .intV 5)]).getD 0 (.intV 0) =
      .intV 5 := by
  have h := (c3_field_resolution pingEntry.fields [("seq", .intV 5)]).2 0 (by decide)
  exact h.1 (.intV 5) (by decide)

/-! ## Claim C4 -/

theorem serializeField_ok_length (t : FieldType) (v : Value) (bs : List Nat)
    (h : serializeField t v = .ok bs) : bs.length = t.width := by
  cases t <;> cases v <;> simp only [serializeField] at h <;> try cases h
  all_goals split at h <;> cases h
  all_goals simp only [FieldType.width, leBytes_length, List.length_append,
    List.length_replicate]
  all_goals omega

theorem serializeFields_ok_length (fields : List (String × FieldType))
    (vals : List Value) (payload : List Nat)
    (h : serializeFields fields vals = .ok payload) :
    payload.length = canonicalLength fields := by
  induction fields generalizing vals payload with
  | nil =>
    cases vals with
    | nil => cases h; rfl
    | cons v vs => cases h
  | cons f fs ih =>
    cases vals with
    | nil => cases h
    | cons v vs =>
      obtain ⟨n, t⟩ := f
      simp only [serializeFields] at h
      cases hb : serializeField t v with
      | error msg => rw [hb] at h; cases h
      | ok b =>
        rw [hb] at h
        cases hrest : serializeFields fs vs with
        | error msg => rw [hrest] at h; cases h
        | ok rest =>
          rw [hrest] at h
          cases h
          have hc : canonicalLength ((n, t) :: fs) = t.width + canonicalLength fs := by
            simp [canonicalLength]
          rw [List.length_append, hc, serializeField_ok_length t v b hb, ih vs rest hrest]

instance {ε α : Type} [DecidableEq ε] [DecidableEq α] : DecidableEq (Except ε α) := fun x y =>
  match x, y with
  | .ok a, .ok b => if h : a = b then isTrue (by rw [h]) else isFalse (by simp [h])
  | .error a, .error b => if h : a = b then isTrue (by rw [h]) else isFalse (by simp [h])
  | .ok _, .error _ => isFalse (by simp)
  | .error _, .ok _ => isFalse (by simp)

theorem packMessage_ok_shape (e : SchemaEntry) (vals : List Value)
    (sysid compid seq : Nat) (bytes : List Nat)
    (h : packMessage e vals sysid compid seq = .ok bytes) :
    bytes.length = MAVLINK_HEADER_LEN + canonicalLength e.fields + MAVLINK_CRC_LEN ∧
    bytes.getD 0 0 = MAVLINK_STX ∧
    bytes.getD 1 0 = canonicalLength e.fields % 256 := by
  unfold packMessage at h
  cases hsf : serializeFields e.fields vals with
  | error msg => rw [hsf] at h; cases h
  | ok payload =>
    rw [hsf] at h
    cases h
    have hplen := serializeFields_ok_length e.fields vals payload hsf
    refine ⟨?_, ?_, ?_⟩
    · simp only [List.length_append, mavHeader, leBytes_length, List.length_cons,
        List.length_nil, MAVLINK_HEADER_LEN, MAVLINK_CRC_LEN]
      omega
    · simp [mavHeader]
    · simp [mavHeader, List.getD]

/-- C4 counterexample: for the input with unknown message name `"NOPE"`,
the encode body produces a structured error, but `write_data`'s boundary
swallows it and returns the original input unchanged — neither valid
wire-format frame bytes nor a structured encode error reaches the
caller. -/
theorem c4_error_passthrough_counterexample :
    encodeCmd testReg ⟨"NOPE", []⟩ 255 0 0 = .error "Unknown MAVLink message type" ∧
    write_data testReg ⟨"NOPE", []⟩ 255 0 0 = .passthrough ⟨"NOPE", []⟩ := by
  decide

/-- C4 amended: `write_data` is total (no exception escapes its
boundary — the whole body is inside `try/except`), and its result is
either a well-formed wire frame (sync byte first, declared length byte,
overall length exactly header + canonical length + checksum — never a
wrong-length frame) or the original input passed through unchanged; a
resolution or serialization failure yields the passthrough, not a
structured EncodeError. -/
theorem c4_write_total (reg : List SchemaEntry) (cmd : CmdInput)
    (sysid compid seq : Nat) :
    (∃ e bytes, findByName reg (pyUpper cmd.msgname) = some e ∧
      write_data reg cmd sysid compid seq = .packet bytes ∧
      bytes.length = MAVLINK_HEADER_LEN + canonicalLength e.fields + MAVLINK_CRC_LEN ∧
      bytes.getD 0 0 = MAVLINK_STX ∧
      bytes.getD 1 0 = canonicalLength e.fields % 256) ∨
    write_data reg cmd sysid compid seq = .passthrough cmd := by
  unfold write_data encodeCmd
  cases hN : findByName reg (pyUpper cmd.msgname) with
  | none => right; rfl
  | some e =>
    cases hP : packMessage e (resolveFieldValues e.fields cmd.fields) sysid compid seq with
    | error msg => right; simp [hP]
    | ok bytes =>
      left
      obtain ⟨hl, h0, h1⟩ := packMessage_ok_shape e _ sysid compid seq bytes hP
      exact ⟨e, bytes, rfl, by simp [hP], hl, h0, h1⟩

/-! ## Claims C8 and C9 -/

/-- When the buffer is a complete declared frame followed by more bytes,
one iteration slices exactly that frame. -/
theorem readLoop_head_frame (reg : List SchemaEntry) (target now : Nat)
    (frame rest : List Nat) (h0 : frame.getD 0 0 = MAVLINK_STX)
    (hlen : frame.length = MAVLINK_HEADER_LEN + frame.getD 1 0 + MAVLINK_CRC_LEN) :
    readLoop reg target now (frame ++ rest) = handleFrame reg target now frame rest := by
  have hfl : 2 ≤ frame.length := by
    simp only [MAVLINK_HEADER_LEN, MAVLINK_CRC_LEN] at hlen; omega
  have gd0 : (frame ++ rest).getD 0 0 = frame.getD 0 0 :=
    List.getD_append frame rest 0 0 (by omega)
  have gd1 : (frame ++ rest).getD 1 0 = frame.getD 1 0 :=
    List.getD_append frame rest 0 1 (by omega)
  have htot : MAVLINK_HEADER_LEN + (frame ++ rest).getD 1 0 + MAVLINK_CRC_LEN =
      frame.length := by rw [gd1, hlen]
  rw [readLoop_complete_frame reg target now (frame ++ rest) (by rw [gd0, h0])
    (by rw [htot, List.length_append]; omega)]
  rw [htot, List.take_left' rfl, List.drop_left' rfl]

/-- C8: with a non-zero target filter, a well-formed frame whose source
system differs from the filter is never delivered — the loop's outcome is
as if the frame were absent (it is silently dropped, with no error
record); a well-formed frame whose source system matches is delivered
unchanged as the call's decoded message. -/
theorem c8_target_filtering (reg : List SchemaEntry) (target now : Nat)
    (frame rest : List Nat) (m : DecodedMessage)
    (htarget : target ≠ 0)
    (hparse : parseFrame reg frame = .ok m)
    (h0 : frame.getD 0 0 = MAVLINK_STX)
    (hlen : frame.length = MAVLINK_HEADER_LEN + frame.getD 1 0 + MAVLINK_CRC_LEN) :
    (m.systemId ≠ target →
      readLoop reg target now (frame ++ rest) = readLoop reg target now rest) ∧
    (m.systemId = target →
      readLoop reg target now (frame ++ rest) = (.msg m, rest, [])) := by
  rw [readLoop_head_frame reg target now frame rest h0 hlen]
  unfold handleFrame
  rw [hparse]
  constructor
  · intro hne
    simp [htarget, hne]
  · intro heq
    simp [heq]

/-- C8 witness: a concrete PING frame from source system 255 against
target filter 5 (dropped) and the matching direction vacuously
instantiated. -/
theorem c8_target_filtering_witness :
    ((pingMsg 7).systemId ≠ 5 →
      readLoop testReg 5 0 (pingFrame 0 7 ++ [1, 2]) = readLoop testReg 5 0 [1, 2]) ∧
    ((pingMsg 7).systemId = 5 →
      readLoop testReg 5 0 (pingFrame 0 7 ++ [1, 2]) = (.msg (pingMsg 7), [1, 2], [])) :=
  c8_target_filtering testReg 5 0 (pingFrame 0 7) [1, 2] (pingMsg 7)
    (by decide) (by decide) (by decide) (by decide)

/-- `pingFrame 0 7` with its final checksum byte corrupted. -/
def badCrcFrame : List Nat :=
  [253, 4, 0, 0, 0, 255, 0, 1, 0, 0, 7, 0, 0, 0, 161, 187]

/-- C9: `read_data` always completes — fuel one past the buffer length
always suffices for the fueled loop, so no artificial bound is needed —
and a malformed complete frame never blocks the rest of the buffer: the
loop records its diagnostic and continues exactly as if only the
remaining bytes were present. -/
theorem c9_feed_completes (reg : List SchemaEntry) (target now : Nat) :
    (∀ buffer : List Nat, readLoopF reg target now (buffer.length + 1) buffer =
      some (readLoop reg target now buffer)) ∧
    (∀ (frame rest : List Nat) (k : DecodeErrKind),
      parseFrame reg frame = .error k →
      frame.getD 0 0 = MAVLINK_STX →
      frame.length = MAVLINK_HEADER_LEN + frame.getD 1 0 + MAVLINK_CRC_LEN →
      readLoop reg target now (frame ++ rest) =
        ((readLoop reg target now rest).1, (readLoop reg target now rest).2.1,
          mkErrorRecord frame now k :: (readLoop reg target now rest).2.2)) := by
  constructor
  · intro buffer
    exact readLoopF_some reg target now (buffer.length + 1) buffer (by omega)
  · intro frame rest k hparse h0 hlen
    rw [readLoop_head_frame reg target now frame rest h0 hlen]
    unfold handleFrame
    rw [hparse]

/-- C9 witness: a corrupted-checksum frame followed by a valid frame —
the bad frame is recorded and the valid frame still decodes. -/
theorem c9_feed_completes_witness :
    parseFrame testReg badCrcFrame = .error .checksumError ∧
    readLoop testReg 0 0 (badCrcFrame ++ pingFrame 1 9) =
      ((readLoop testReg 0 0 (pingFrame 1 9)).1,
       (readLoop testReg 0 0 (pingFrame 1 9)).2.1,
        mkErrorRecord badCrcFrame 0 .checksumError ::
          (readLoop testReg 0 0 (pingFrame 1 9)).2.2) :=
  ⟨by decide, (c9_feed_completes testReg 0 0).2 badCrcFrame (pingFrame 1 9)
    .checksumError (by decide) (by decide) (by decide)⟩

/-! ## Claim C5 -/

/-- What actually holds of every error record the source pushes to the
telemetry sink: sentinel id 65535, name `"MAVLINK_ERROR"`, the caller's
(microsecond) timestamp, a kind tag from the source's own set, the
original frame's length, best-effort source identity from frame bytes 5
and 6, and the frame bytes in reversible hex. -/
def ErrorRecordWellFormed (now : Nat) (rec : ErrorRecord) : Prop :=
  rec.msgid = 65535 ∧
  rec.msgname = "MAVLINK_ERROR" ∧
  rec.timestamp = now ∧
  (rec.errorType = "PREFIX_ERROR" ∨ rec.errorType = "CRC_FAILURE" ∨
    rec.errorType = "MAVError") ∧
  ∃ packet : List Nat,
    rec.packetLength = packet.length ∧
    rec.rawPacket = hexEncode packet ∧
    hexDecode rec.rawPacket = packet ∧
    rec.systemId = packet.getD 5 0 ∧
    rec.componentId = packet.getD 6 0 ∧
    packet.length = MAVLINK_HEADER_LEN + packet.getD 1 0 + MAVLINK_CRC_LEN

theorem readLoopF_records (reg : List SchemaEntry) (target now : Nat) :
    ∀ (fuel : Nat) (buffer : List Nat), (∀ b ∈ buffer, b < 256) →
      ∀ (r : ReadResult) (rest : List Nat) (recs : List ErrorRecord),
        readLoopF reg target now fuel buffer = some (r, rest, recs) →
        ∀ rec ∈ recs, ErrorRecordWellFormed now rec := by
  intro fuel
  induction fuel with
  | zero => intro buffer hb r rest recs h; simp [readLoopF] at h
  | succ fuel ih =>
    intro buffer hb r rest recs h
    rw [readLoopF] at h
    split at h
    · simp only [Option.some.injEq, Prod.mk.injEq] at h
      rw [← h.2.2]
      intro rec hrec
      simp at hrec
    · split at h
      · exact ih _ (fun b hmem => hb b (List.mem_of_mem_drop hmem)) _ _ _ h
      · split at h
        · simp only [Option.some.injEq, Prod.mk.injEq] at h
          rw [← h.2.2]
          intro rec hrec
          simp at hrec
        · split at h
          · simp only [Option.some.injEq, Prod.mk.injEq] at h
            rw [← h.2.2]
            intro rec hrec
            simp at hrec
          · rename_i h1 h2 h3 h4
            split at h
            · split at h
              · exact ih _ (fun b hmem => hb b (List.mem_of_mem_drop hmem)) _ _ _ h
              · simp only [Option.some.injEq, Prod.mk.injEq] at h
                rw [← h.2.2]
                intro rec hrec
                simp at hrec
            · rename_i k hk
              rcases ho : readLoopF reg target now fuel
                  (buffer.drop (MAVLINK_HEADER_LEN + buffer.getD 1 0 + MAVLINK_CRC_LEN))
                with _ | ⟨r', b', recs'⟩
              · rw [ho] at h; simp at h
              · rw [ho] at h
                simp only [Option.map_some', Option.some.injEq, Prod.mk.injEq] at h
                obtain ⟨-, -, hrecs⟩ := h
                rw [← hrecs]
                intro rec hrec
                rcases List.mem_cons.mp hrec with hhead | htail
                · subst hhead
                  -- the record built for the sliced packet
                  have hlen4 : ¬ buffer.length <
                      MAVLINK_HEADER_LEN + buffer.getD 1 0 + MAVLINK_CRC_LEN := h4
                  have hplen : (buffer.take
                      (MAVLINK_HEADER_LEN + buffer.getD 1 0 + MAVLINK_CRC_LEN)).length =
                      MAVLINK_HEADER_LEN + buffer.getD 1 0 + MAVLINK_CRC_LEN := by
                    rw [List.length_take]
                    omega
                  have hget1 : (buffer.take
                      (MAVLINK_HEADER_LEN + buffer.getD 1 0 + MAVLINK_CRC_LEN)).getD 1 0 =
                      buffer.getD 1 0 := by
                    simp only [List.getD_eq_getElem?_getD, List.getElem?_take]
                    rw [if_pos (by simp [MAVLINK_HEADER_LEN, MAVLINK_CRC_LEN])]
                  have hbig : 12 ≤ (buffer.take
                      (MAVLINK_HEADER_LEN + buffer.getD 1 0 + MAVLINK_CRC_LEN)).length := by
                    rw [hplen]
                    simp [MAVLINK_HEADER_LEN, MAVLINK_CRC_LEN]
                  refine ⟨rfl, rfl, rfl, ?_, ?_⟩
                  · cases k <;> simp [mkErrorRecord, errType]
                  · refine ⟨buffer.take
                      (MAVLINK_HEADER_LEN + buffer.getD 1 0 + MAVLINK_CRC_LEN),
                      rfl, rfl, ?_, ?_, ?_, ?_⟩
                    · exact hexDecode_hexEncode _
                        (fun b hmem => hb b (List.take_subset _ _ hmem))
                    · simp only [mkErrorRecord]
                      rw [if_pos (by omega)]
                    · simp only [mkErrorRecord]
                      rw [if_pos (by omega)]
                    · rw [hplen, hget1]
                · exact ih _ (fun b hmem => hb b (List.mem_of_mem_drop hmem)) _ _ _
                    ho rec htail

/-- C5 counterexample: the record emitted for a concrete corrupted frame
carries the name `"MAVLINK_ERROR"` — not `"DECODE_ERROR"` — and the
kind tag `"CRC_FAILURE"`, which is outside the claimed set
{FRAMING_ERROR, CHECKSUM_FAILURE, UNKNOWN_MESSAGE}. -/
theorem c5_record_naming_counterexample :
    readLoop testReg 0 0 badCrcFrame =
      (.stop, [], [mkErrorRecord badCrcFrame 0 .checksumError]) ∧
    (mkErrorRecord badCrcFrame 0 .checksumError).msgname = "MAVLINK_ERROR" ∧
    (mkErrorRecord badCrcFrame 0 .checksumError).msgname ≠ "DECODE_ERROR" ∧
    (mkErrorRecord badCrcFrame 0 .checksumError).errorType = "CRC_FAILURE" ∧
    (mkErrorRecord badCrcFrame 0 .checksumError).errorType ≠ "CHECKSUM_FAILURE" ∧
    (mkErrorRecord badCrcFrame 0 .checksumError).errorType ≠ "FRAMING_ERROR" ∧
    (mkErrorRecord badCrcFrame 0 .checksumError).errorType ≠ "UNKNOWN_MESSAGE" :=
  ⟨readLoop_eval (by decide), by decide, by decide, by decide, by decide,
    by decide, by decide⟩

/-- C5 amended: every decode-failure record emitted during a `read_data`
call carries the numeric sentinel id 65535, the name `"MAVLINK_ERROR"`
(not `"DECODE_ERROR"`), best-effort source identity from raw frame bytes
5 and 6, the call's microsecond timestamp, an error-kind tag drawn from
the source's set {PREFIX_ERROR, CRC_FAILURE, MAVError} (not
{FRAMING_ERROR, CHECKSUM_FAILURE, UNKNOWN_MESSAGE}), a human-readable
message, the original frame length, and the raw frame bytes in a
reversible hex encoding. -/
theorem c5_error_record_fields (reg : List SchemaEntry) (target now : Nat)
    (buffer data : List Nat) (hb : ∀ b ∈ buffer ++ data, b < 256)
    (r : ReadResult) (rest : List Nat) (recs : List ErrorRecord)
    (h : read_data reg target now buffer data = (r, rest, recs)) :
    ∀ rec ∈ recs, ErrorRecordWellFormed now rec := by
  apply readLoopF_records reg target now ((buffer ++ data).length + 1) (buffer ++ data) hb
  rw [readLoopF_some reg target now _ _ (by omega)]
  rw [show readLoop reg target now (buffer ++ data) =
    read_data reg target now buffer data from rfl, h]

/-- C5 witness: the record for the concrete corrupted frame is
well-formed in the amended sense. -/
theorem c5_error_record_fields_witness :
    ErrorRecordWellFormed 0 (mkErrorRecord badCrcFrame 0 .checksumError) :=
  c5_error_record_fields testReg 0 0 [] badCrcFrame (by decide) .stop []
    [mkErrorRecord badCrcFrame 0 .checksumError]
    (readLoop_eval (by decide))
    (mkErrorRecord badCrcFrame 0 .checksumError) (List.mem_cons_self _ _)

/-! ## Claim C1: encode/decode round trip -/

theorem takeWhile_all {p : Nat → Bool} (s : List Nat) (h : ∀ b ∈ s, p b = true) :
    s.takeWhile p = s := by
  induction s with
  | nil => rfl
  | cons b rest ih =>
    rw [List.takeWhile_cons, if_pos (h b (List.mem_cons_self _ _))]
    exact congrArg (b :: ·) (ih (fun x hx => h x (List.mem_cons_of_mem _ hx)))

theorem takeWhile_replicate_zero (k : Nat) :
    (List.replicate k (0 : Nat)).takeWhile (fun b => b ≠ 0) = [] := by
  cases k with
  | zero => rfl
  | succ n => rfl

/-- One field round-trips through its wire bytes for every representable
value. -/
theorem serializeField_roundtrip (t : FieldType) (v : Value)
    (h : representable t v) :
    ∃ bs, serializeField t v = .ok bs ∧ bs.length = t.width ∧
      (∀ b ∈ bs, b < 256) ∧ deserializeField t bs = v := by
  cases t with
  | unsigned w =>
    cases v with
    | strV s => exact absurd h (by simp [representable])
    | floatV bits => exact absurd h (by simp [representable])
    | intV i =>
      obtain ⟨h0, h1⟩ := h
      have hpow : (((256 : Nat) ^ w : Nat) : Int) = (2 : Int) ^ (8 * w) := by
        push_cast
        rw [show (256 : Int) = 2 ^ 8 by norm_num, ← pow_mul]
      have hlt : i.toNat < 256 ^ w := by
        have : (i.toNat : Int) < ((256 ^ w : Nat) : Int) := by
          rw [hpow, Int.toNat_of_nonneg h0]
          exact h1
        exact_mod_cast this
      refine ⟨leBytes w i.toNat, ?_, leBytes_length w _, leBytes_lt w _, ?_⟩
      · simp [serializeField, h0, h1]
      · simp only [deserializeField, leNat_leBytes w _ hlt, Value.intV.injEq]
        exact Int.toNat_of_nonneg h0
  | signed w =>
    cases v with
    | strV s => exact absurd h (by simp [representable])
    | floatV bits => exact absurd h (by simp [representable])
    | intV i =>
      obtain ⟨h0, h1⟩ := h
      have hpow : (((256 : Nat) ^ w : Nat) : Int) = (2 : Int) ^ (8 * w) := by
        push_cast
        rw [show (256 : Int) = 2 ^ 8 by norm_num, ← pow_mul]
      have hpow2 : ((2 ^ (8 * w) : Nat) : Int) = (2 : Int) ^ (8 * w) := by push_cast; rfl
      have hMpos : (0 : Int) < (2 : Int) ^ (8 * w) := by positivity
      have hdm := Int.ediv_add_emod ((2 : Int) ^ (8 * w)) 2
      have hm2a : (0 : Int) ≤ (2 : Int) ^ (8 * w) % 2 :=
        Int.emod_nonneg _ (by norm_num)
      have hm2b : (2 : Int) ^ (8 * w) % 2 < 2 :=
        Int.emod_lt_of_pos _ (by norm_num)
      have hserOk : serializeField (.signed w) (.intV i) =
          .ok (leBytes w (i % (2 : Int) ^ (8 * w)).toNat) := by
        simp [serializeField, h0, h1]
      have hmod : i % (2 : Int) ^ (8 * w) =
          if 0 ≤ i then i else i + (2 : Int) ^ (8 * w) := by
        split
        · exact Int.emod_eq_of_lt (by assumption) (by omega)
        · rename_i hneg
          rw [show i % (2 : Int) ^ (8 * w) = (i + (2 : Int) ^ (8 * w)) % (2 : Int) ^ (8 * w)
            from (Int.add_emod_self).symm]
          exact Int.emod_eq_of_lt (by omega) (by omega)
      have hlt : (i % (2 : Int) ^ (8 * w)).toNat < 256 ^ w := by
        have hnn : (0 : Int) ≤ i % (2 : Int) ^ (8 * w) := Int.emod_nonneg _ (by omega)
        have hub : i % (2 : Int) ^ (8 * w) < (2 : Int) ^ (8 * w) :=
          Int.emod_lt_of_pos _ hMpos
        have : ((i % (2 : Int) ^ (8 * w)).toNat : Int) < ((256 ^ w : Nat) : Int) := by
          rw [hpow, Int.toNat_of_nonneg hnn]
          exact hub
        exact_mod_cast this
      refine ⟨leBytes w (i % (2 : Int) ^ (8 * w)).toNat, hserOk,
        leBytes_length w _, leBytes_lt w _, ?_⟩
      simp only [deserializeField, leNat_leBytes w _ hlt]
      have hcast : (((i % (2 : Int) ^ (8 * w)).toNat : Nat) : Int) =
          i % (2 : Int) ^ (8 * w) :=
        Int.toNat_of_nonneg (Int.emod_nonneg _ (by omega))
      by_cases hpos : 0 ≤ i
      · rw [if_pos]
        · rw [Value.intV.injEq, hcast, hmod, if_pos hpos]
        · have : ((2 * (i % (2 : Int) ^ (8 * w)).toNat : Nat) : Int) <
              ((2 ^ (8 * w) : Nat) : Int) := by
            rw [hpow2]
            push_cast
            rw [hcast, hmod, if_pos hpos]
            omega
          exact_mod_cast this
      · rw [if_neg]
        · rw [Value.intV.injEq, hcast, hmod, if_neg hpos]
          ring
        · intro hc
          have : ((2 * (i % (2 : Int) ^ (8 * w)).toNat : Nat) : Int) <
              ((2 ^ (8 * w) : Nat) : Int) := by exact_mod_cast hc
          rw [hpow2] at this
          push_cast at this
          rw [hcast, hmod, if_neg hpos] at this
          omega
  | float32 =>
    cases v with
    | intV i => exact absurd h (by simp [representable])
    | strV s => exact absurd h (by simp [representable])
    | floatV bits =>
      have hlt : bits < 256 ^ 4 := by
        have : (256 : Nat) ^ 4 = 2 ^ 32 := by norm_num
        simp only [representable] at h
        omega
      refine ⟨leBytes 4 bits, ?_, leBytes_length 4 _, leBytes_lt 4 _, ?_⟩
      · simp only [serializeField]
        rw [if_pos (by simpa [representable] using h)]
      · simp only [deserializeField, leNat_leBytes 4 _ hlt]
  | float64 =>
    cases v with
    | intV i => exact absurd h (by simp [representable])
    | strV s => exact absurd h (by simp [representable])
    | floatV bits =>
      have hlt : bits < 256 ^ 8 := by
        have : (256 : Nat) ^ 8 = 2 ^ 64 := by norm_num
        simp only [representable] at h
        omega
      refine ⟨leBytes 8 bits, ?_, leBytes_length 8 _, leBytes_lt 8 _, ?_⟩
      · simp only [serializeField]
        rw [if_pos (by simpa [representable] using h)]
      · simp only [deserializeField, leNat_leBytes 8 _ hlt]
  | chararray len =>
    cases v with
    | intV i => exact absurd h (by simp [representable])
    | floatV bits => exact absurd h (by simp [representable])
    | strV s =>
      obtain ⟨h0, h1⟩ := h
      refine ⟨s ++ List.replicate (len - s.length) 0, ?_, ?_, ?_, ?_⟩
      · simp only [serializeField]
        rw [if_pos ⟨h0, fun b hb => (h1 b hb).2⟩]
      · simp only [List.length_append, List.length_replicate, FieldType.width]
        omega
      · intro b hb
        rcases List.mem_append.mp hb with hs | hr
        · exact (h1 b hs).2
        · rw [List.eq_of_mem_replicate hr]
          norm_num
      · simp only [deserializeField, List.takeWhile_append]
        rw [takeWhile_all s (fun b hb => by
          simpa using Nat.pos_iff_ne_zero.mp (h1 b hb).1)]
        rw [if_pos rfl, takeWhile_replicate_zero, List.append_nil]

/-- The whole field list round-trips through the fixed-width payload. -/
theorem serializeFields_roundtrip (fields : List (String × FieldType))
    (vals : List Value)
    (h : List.Forall₂ (fun f v => representable f.2 v) fields vals) :
    ∃ payload, serializeFields fields vals = .ok payload ∧
      payload.length = canonicalLength fields ∧
      (∀ b ∈ payload, b < 256) ∧
      deserializeFields fields payload = List.zip (fields.map Prod.fst) vals := by
  induction h with
  | nil => exact ⟨[], rfl, rfl, by simp, rfl⟩
  | cons hrep htail ih =>
    rename_i f v fs vs
    obtain ⟨bs, hser, hlen, hbs, hdes⟩ := serializeField_roundtrip f.2 v hrep
    obtain ⟨payload, hser', hlen', hbs', hdes'⟩ := ih
    refine ⟨bs ++ payload, ?_, ?_, ?_, ?_⟩
    · obtain ⟨n, t⟩ := f
      simp only [serializeFields]
      rw [hser, hser']
    · rw [List.length_append, hlen, hlen']
      simp [canonicalLength]
    · intro b hb
      rcases List.mem_append.mp hb with h1 | h2
      · exact hbs b h1
      · exact hbs' b h2
    · obtain ⟨n, t⟩ := f
      simp only [deserializeFields]
      rw [List.take_left' hlen, List.drop_left' hlen, hdes, hdes']
      simp

/-- Appending a dictionary entry whose key matches no field leaves the
resolution unchanged. -/
theorem resolveFieldValues_skip (fs : List (String × FieldType))
    (cmd : List (String × Value)) (n : String) (v : Value)
    (hne : ∀ f ∈ fs, f.1 ≠ n) :
    resolveFieldValues fs ((n, v) :: cmd) = resolveFieldValues fs cmd := by
  unfold resolveFieldValues
  apply List.map_congr_left
  intro f hf
  simp only [dictGet]
  rw [if_neg (fun hc => hne f hf hc.symm)]

/-- Resolution recovers exactly the caller's values when the map holds
every schema field under its exact name (schema field names distinct). -/
theorem resolveFieldValues_zip (fields : List (String × FieldType))
    (vals : List Value) (hlen : vals.length = fields.length)
    (hnodup : (fields.map Prod.fst).Nodup) :
    resolveFieldValues fields (List.zip (fields.map Prod.fst) vals) = vals := by
  induction fields generalizing vals with
  | nil =>
    cases vals with
    | nil => rfl
    | cons v vs => simp at hlen
  | cons f fs ih =>
    cases vals with
    | nil => simp at hlen
    | cons v vs =>
      obtain ⟨n, t⟩ := f
      simp only [List.map_cons, List.zip_cons_cons]
      have hnotin : n ∉ fs.map Prod.fst := by
        simp only [List.map_cons, List.nodup_cons] at hnodup
        exact hnodup.1
      have hne : ∀ g ∈ fs, g.1 ≠ n := fun g hg hc =>
        hnotin (hc ▸ List.mem_map_of_mem Prod.fst hg)
      calc resolveFieldValues ((n, t) :: fs) ((n, v) :: List.zip (fs.map Prod.fst) vs)
          = (match dictGet ((n, v) :: List.zip (fs.map Prod.fst) vs) n with
             | some v' => v'
             | none => defaultValue t) ::
            resolveFieldValues fs ((n, v) :: List.zip (fs.map Prod.fst) vs) := rfl
        _ = v :: resolveFieldValues fs (List.zip (fs.map Prod.fst) vs) := by
            rw [resolveFieldValues_skip fs _ n v hne]
            simp [dictGet]
        _ = v :: vs := by
            rw [ih vs (by simpa using hlen) (by
              simp only [List.map_cons, List.nodup_cons] at hnodup
              exact hnodup.2)]

/-- Decoding a frame packed from a canonical-length payload recovers the
schema entry, the source identity and the payload's field values. -/
theorem parseFrame_decomposed (reg : List SchemaEntry) (e : SchemaEntry)
    (payload : List Nat) (sysid compid seq : Nat)
    (hid : findById reg e.id = some e)
    (hidsz : e.id < 2 ^ 24)
    (hclen : canonicalLength e.fields ≤ 255)
    (hplen : payload.length = canonicalLength e.fields) :
    (mavHeader e sysid compid seq ++ payload ++
      leBytes 2 (frameCrc e ((mavHeader e sysid compid seq).drop 1 ++
        payload))).getD 0 0 = MAVLINK_STX ∧
    (mavHeader e sysid compid seq ++ payload ++
      leBytes 2 (frameCrc e ((mavHeader e sysid compid seq).drop 1 ++
        payload))).getD 1 0 = canonicalLength e.fields ∧
    (mavHeader e sysid compid seq ++ payload ++
      leBytes 2 (frameCrc e ((mavHeader e sysid compid seq).drop 1 ++
        payload))).length =
      MAVLINK_HEADER_LEN + canonicalLength e.fields + MAVLINK_CRC_LEN ∧
    parseFrame reg (mavHeader e sysid compid seq ++ payload ++
        leBytes 2 (frameCrc e ((mavHeader e sysid compid seq).drop 1 ++ payload))) =
      .ok { msgid := e.id, msgname := e.name, systemId := sysid % 256,
            componentId := compid % 256,
            fields := deserializeFields e.fields payload } := by
  have hHlen : (mavHeader e sysid compid seq).length = 10 := by
    simp [mavHeader, leBytes_length]
  have hHPlen : (mavHeader e sysid compid seq ++ payload).length =
      10 + canonicalLength e.fields := by
    rw [List.length_append, hHlen, hplen]
  -- byte accesses into the packed frame
  have gIdx : ∀ i, i < 10 →
      (mavHeader e sysid compid seq ++ payload ++
        leBytes 2 (frameCrc e ((mavHeader e sysid compid seq).drop 1 ++ payload))).getD i 0 =
      (mavHeader e sysid compid seq).getD i 0 := by
    intro i hi
    rw [List.getD_append _ _ 0 i (by rw [hHPlen]; omega),
      List.getD_append _ _ 0 i (by omega)]
  have g0 : (mavHeader e sysid compid seq).getD 0 0 = MAVLINK_STX := rfl
  have g1 : (mavHeader e sysid compid seq).getD 1 0 =
      canonicalLength e.fields % 256 := rfl
  have g1' : (mavHeader e sysid compid seq).getD 1 0 = canonicalLength e.fields := by
    rw [g1]; omega
  have g5 : (mavHeader e sysid compid seq).getD 5 0 = sysid % 256 := rfl
  have g6 : (mavHeader e sysid compid seq).getD 6 0 = compid % 256 := rfl
  have g789 : [(mavHeader e sysid compid seq).getD 7 0,
      (mavHeader e sysid compid seq).getD 8 0,
      (mavHeader e sysid compid seq).getD 9 0] = leBytes 3 e.id := rfl
  have hid24 : e.id < 256 ^ 3 := by
    have : (256 : Nat) ^ 3 = 2 ^ 24 := by norm_num
    omega
  refine ⟨by rw [gIdx 0 (by omega), g0], by rw [gIdx 1 (by omega), g1'], ?_, ?_⟩
  · rw [List.length_append, hHPlen, leBytes_length]
    simp [MAVLINK_HEADER_LEN, MAVLINK_CRC_LEN]
  simp only [parseFrame]
  rw [if_neg (by rw [gIdx 0 (by omega), g0]; simp)]
  rw [gIdx 7 (by omega), gIdx 8 (by omega), gIdx 9 (by omega)]
  rw [show leNat [(mavHeader e sysid compid seq).getD 7 0,
      (mavHeader e sysid compid seq).getD 8 0,
      (mavHeader e sysid compid seq).getD 9 0] = e.id from by
    rw [g789]; exact leNat_leBytes 3 e.id hid24]
  rw [hid]
  simp only
  rw [gIdx 1 (by omega), g1']
  -- the checksum span re-read from the frame is the span the packer used
  have hspan : ((mavHeader e sysid compid seq ++ payload ++
      leBytes 2 (frameCrc e ((mavHeader e sysid compid seq).drop 1 ++ payload))).drop 1).take
        (MAVLINK_HEADER_LEN - 1 + canonicalLength e.fields) =
      (mavHeader e sysid compid seq).drop 1 ++ payload := by
    rw [show (mavHeader e sysid compid seq ++ payload ++
        leBytes 2 (frameCrc e ((mavHeader e sysid compid seq).drop 1 ++ payload))).drop 1 =
      ((mavHeader e sysid compid seq).drop 1 ++ payload) ++
        leBytes 2 (frameCrc e ((mavHeader e sysid compid seq).drop 1 ++ payload)) from rfl]
    apply List.take_left'
    rw [List.length_append, List.length_drop, hHlen, hplen]
    simp [MAVLINK_HEADER_LEN]
  rw [hspan]
  -- the stored checksum bytes
  have hcrclt : frameCrc e ((mavHeader e sysid compid seq).drop 1 ++ payload) < 256 ^ 2 := by
    have := crc16_lt (((mavHeader e sysid compid seq).drop 1 ++ payload) ++
      [e.crcExtra % 256])
    simpa [frameCrc] using this
  have gst0 : (mavHeader e sysid compid seq ++ payload ++
      leBytes 2 (frameCrc e ((mavHeader e sysid compid seq).drop 1 ++ payload))).getD
        (MAVLINK_HEADER_LEN + canonicalLength e.fields) 0 =
      (leBytes 2 (frameCrc e ((mavHeader e sysid compid seq).drop 1 ++ payload))).getD 0 0 := by
    rw [List.getD_append_right _ _ 0 _ (by rw [hHPlen]; simp [MAVLINK_HEADER_LEN])]
    rw [hHPlen]
    simp [MAVLINK_HEADER_LEN]
  have gst1 : (mavHeader e sysid compid seq ++ payload ++
      leBytes 2 (frameCrc e ((mavHeader e sysid compid seq).drop 1 ++ payload))).getD
        (MAVLINK_HEADER_LEN + canonicalLength e.fields + 1) 0 =
      (leBytes 2 (frameCrc e ((mavHeader e sysid compid seq).drop 1 ++ payload))).getD 1 0 := by
    rw [List.getD_append_right _ _ 0 _ (by rw [hHPlen]; simp [MAVLINK_HEADER_LEN])]
    rw [hHPlen]
    simp [MAVLINK_HEADER_LEN]
  rw [gst0, gst1]
  rw [show leNat [(leBytes 2 (frameCrc e ((mavHeader e sysid compid seq).drop 1 ++
      payload))).getD 0 0,
      (leBytes 2 (frameCrc e ((mavHeader e sysid compid seq).drop 1 ++ payload))).getD 1 0] =
      frameCrc e ((mavHeader e sysid compid seq).drop 1 ++ payload) from by
    rw [show [(leBytes 2 (frameCrc e ((mavHeader e sysid compid seq).drop 1 ++
        payload))).getD 0 0,
        (leBytes 2 (frameCrc e ((mavHeader e sysid compid seq).drop 1 ++ payload))).getD 1 0] =
      leBytes 2 (frameCrc e ((mavHeader e sysid compid seq).drop 1 ++ payload)) from rfl]
    exact leNat_leBytes 2 _ hcrclt]
  rw [if_neg (by simp)]
  -- the transmitted payload read back from the frame
  have hraw : ((mavHeader e sysid compid seq ++ payload ++
      leBytes 2 (frameCrc e ((mavHeader e sysid compid seq).drop 1 ++ payload))).drop
        MAVLINK_HEADER_LEN).take (canonicalLength e.fields) = payload := by
    rw [List.append_assoc]
    rw [show MAVLINK_HEADER_LEN = (mavHeader e sysid compid seq).length from hHlen.symm ▸ rfl]
    rw [List.drop_left]
    exact List.take_left' hplen
  rw [hraw, hplen]
  simp only [Nat.sub_self, List.replicate_zero, List.append_nil]
  rw [gIdx 5 (by omega), gIdx 6 (by omega), g5, g6]

/-- C1: for every schema entry and any representable field-value map,
encoding via `write_data` and then feeding the produced frame bytes to
`read_data` (filter off) yields a decoded message whose field values
equal the originals, and whose recovered name and id match the schema
entry. -/
theorem c1_encode_decode_roundtrip (reg : List SchemaEntry) (e : SchemaEntry)
    (cmd : CmdInput) (vals : List Value) (now sysid compid seq : Nat)
    (hname : findByName reg (pyUpper cmd.msgname) = some e)
    (hid : findById reg e.id = some e)
    (hidsz : e.id < 2 ^ 24)
    (hclen : canonicalLength e.fields ≤ 255)
    (hnodup : (e.fields.map Prod.fst).Nodup)
    (hcmd : cmd.fields = List.zip (e.fields.map Prod.fst) vals)
    (hrep : List.Forall₂ (fun f v => representable f.2 v) e.fields vals) :
    ∃ frame, write_data reg cmd sysid compid seq = .packet frame ∧
      read_data reg 0 now [] frame =
        (.msg { msgid := e.id, msgname := e.name, systemId := sysid % 256,
                componentId := compid % 256,
                fields := List.zip (e.fields.map Prod.fst) vals }, [], []) := by
  have hlen : vals.length = e.fields.length := hrep.length_eq.symm
  have hres : resolveFieldValues e.fields cmd.fields = vals := by
    rw [hcmd]
    exact resolveFieldValues_zip e.fields vals hlen hnodup
  obtain ⟨payload, hser, hplen, hpb, hdes⟩ := serializeFields_roundtrip e.fields vals hrep
  obtain ⟨hg0, hg1, hglen, hparse⟩ :=
    parseFrame_decomposed reg e payload sysid compid seq hid hidsz hclen hplen
  refine ⟨mavHeader e sysid compid seq ++ payload ++
    leBytes 2 (frameCrc e ((mavHeader e sysid compid seq).drop 1 ++ payload)), ?_, ?_⟩
  · unfold write_data encodeCmd
    rw [hname]
    show (match packMessage e (resolveFieldValues e.fields cmd.fields) sysid compid seq with
      | Except.ok packet => WriteResult.packet packet
      | Except.error _ => WriteResult.passthrough cmd) = _
    rw [hres]
    simp only [packMessage]
    rw [hser]
  · show readLoop reg 0 now ([] ++ (mavHeader e sysid compid seq ++ payload ++
      leBytes 2 (frameCrc e ((mavHeader e sysid compid seq).drop 1 ++ payload)))) = _
    rw [List.nil_append]
    rw [readLoop_complete_frame reg 0 now _ hg0 (by rw [hg1, hglen])]
    rw [hg1]
    rw [show MAVLINK_HEADER_LEN + canonicalLength e.fields + MAVLINK_CRC_LEN =
      (mavHeader e sysid compid seq ++ payload ++
        leBytes 2 (frameCrc e ((mavHeader e sysid compid seq).drop 1 ++
          payload))).length from hglen.symm]
    rw [List.take_length, List.drop_length]
    unfold handleFrame
    rw [hparse]
    simp only [ne_eq, not_true_eq_false, false_and, if_false]
    rw [hdes]

/-- A schema exercising every wire type of spec §4.3 step 7 — unsigned
and signed integers, IEEE single and double precision floats, and a
character array — used to witness the round trip. -/
def attEntry : SchemaEntry :=
  { id := 30, name := "ATTITUDE", fields :=
      [("time_boot_ms", .unsigned 4), ("roll", .float32), ("pitch", .float64),
       ("yaw", .signed 2), ("frame_id", .chararray 4)], crcExtra := 39 }

/-- A registry holding the `ATTITUDE` schema. -/
def attReg : List SchemaEntry := [attEntry]

/-- The field values used in the C1 witness: a uint32, the binary32 bit
pattern of 1.5, the binary64 bit pattern of 1.25, a negative int16, and
a two-character string. -/
def attVals : List Value :=
  [.intV 7, .floatV 0x3FC00000, .floatV 0x3FF4000000000000,
   .intV (-3), .strV [78, 69]]

/-- C1 witness: a schema carrying every wire type — including IEEE
single and double precision float fields — encodes and decodes back to
the original values (message name given in lowercase, resolved
case-insensitively). -/
theorem c1_encode_decode_roundtrip_witness :
    ∃ frame, write_data attReg
        ⟨"attitude", List.zip (attEntry.fields.map Prod.fst) attVals⟩
        255 0 0 = .packet frame ∧
      read_data attReg 0 0 [] frame =
        (.msg { msgid := attEntry.id, msgname := attEntry.name,
                systemId := 255 % 256, componentId := 0 % 256,
                fields := List.zip (attEntry.fields.map Prod.fst) attVals },
          [], []) :=
  c1_encode_decode_roundtrip attReg attEntry
    ⟨"attitude", List.zip (attEntry.fields.map Prod.fst) attVals⟩
    attVals 0 255 0 0 (by decide) (by decide) (by decide) (by decide)
    (by decide) (by decide) (by decide)

end Mavlink
